import Mathlib

/-!
# Verification of the MasterX streaming chat consumer

Shallow embedding of the browser-side stream consumer of the MasterX
repository, together with the UI reducer it dispatches into:

* `appReducer` embeds `appReducer` of `frontend/src/context/AppContext.js`
  (lines 46-118), acting on `AppState` (the fields of `initialState`,
  lines 5-21) via `Action` (one constructor per entry of `ActionTypes`).
* `sendMessage` / `sendPremiumMessage` embed the streaming consumers of the
  same file (lines 228-311 and 313-399).  The HTTP response body is
  modelled as the list of strings the successive `reader.read()` +
  `TextDecoder` steps deliver (`FetchResult`); `JSON.parse` is modelled by
  the executable parser `parseJson` below.
* `handleSendMessage` / `sendButtonDisabled` embed the submit guard of
  `frontend/src/components/ChatInterface.js` (lines 56-61 and 367-370).

JS values appearing in frame payloads are modelled by `Json`.  Notes on
fidelity of the `JSON.parse` model: numbers are modelled as integers
(fraction/exponent forms and the leading-zero restriction are not
modelled; no frame of the protocol carries such numbers), and `\uXXXX`
escapes denoting lone surrogates are not modelled.  All general theorems
consume the parser only through hypotheses of the form
`parseJson s = some v`, so these corners never bear load.
-/

namespace MasterX

/-- JS/JSON values as delivered by `JSON.parse`. -/
inductive Json where
  | null : Json
  | bool : Bool → Json
  | num : Int → Json
  | str : String → Json
  | arr : List Json → Json
  | obj : List (String × Json) → Json
deriving Repr

/-- Property lookup `o[k]` on a parsed value: `none` models JS `undefined`
(absent key, or property access on a non-object primitive).  `JSON.parse`
keeps the *last* of duplicate keys, hence the left fold. -/
def Json.jget : Json → String → Option Json
  | .obj fs, k => fs.foldl (fun r p => if p.1 = k then some p.2 else r) none
  | _, _ => none

/-- JS `data.type === t` for a string constant `t`: true exactly when the
property is present and is that string. -/
def typeIs (data : Json) (t : String) : Bool :=
  match data.jget "type" with
  | some (.str s) => s == t
  | _ => false

/-- JS truthiness of a parsed value. -/
def truthy : Json → Bool
  | .null => false
  | .bool b => b
  | .num n => decide (n ≠ 0)
  | .str s => decide (s ≠ "")
  | .arr _ => true
  | .obj _ => true

/-- JS truthiness where `none` is `undefined` (falsy). -/
def truthyO : Option Json → Bool
  | some v => truthy v
  | none => false

/-- JS `a || b` on a possibly-undefined left operand. -/
def jsOr (a : Option Json) (b : Json) : Json :=
  match a with
  | some v => if truthy v then v else b
  | none => b

/-- JS `a || b` where both operands may be undefined. -/
def jsOrO (a b : Option Json) : Option Json :=
  match a with
  | some v => if truthy v then some v else b
  | none => b

mutual
/-- JS string coercion of a parsed value, as performed by `+` on a string
(arrays join their elements with commas; objects print the generic tag). -/
def jsToString : Json → String
  | .str s => s
  | .num n => toString n
  | .bool true => "true"
  | .bool false => "false"
  | .null => "null"
  | .arr xs => String.intercalate "," (jsToStringList xs)
  | .obj _ => "[object Object]"

def jsToStringList : List Json → List String
  | [] => []
  | x :: xs => jsToString x :: jsToStringList xs
end

/-! ## `JSON.parse`, executable model -/

/-- Skip JSON insignificant whitespace. -/
def skipWs : List Char → List Char
  | c :: cs => if c = ' ' ∨ c = '\n' ∨ c = '\t' ∨ c = '\r' then skipWs cs else c :: cs
  | [] => []

/-- Hexadecimal digit value. -/
def hexVal (c : Char) : Option Nat :=
  if '0' ≤ c ∧ c ≤ '9' then some (c.toNat - '0'.toNat)
  else if 'a' ≤ c ∧ c ≤ 'f' then some (c.toNat - 'a'.toNat + 10)
  else if 'A' ≤ c ∧ c ≤ 'F' then some (c.toNat - 'A'.toNat + 10)
  else none

/-- Body of a JSON string after the opening quote; returns the decoded
string and the input remaining after the closing quote. -/
def parseStrAux : List Char → List Char → Option (String × List Char)
  | [], _ => none
  | '"' :: rest, acc => some (String.mk acc.reverse, rest)
  | '\\' :: rest, acc =>
    match rest with
    | '"' :: r => parseStrAux r ('"' :: acc)
    | '\\' :: r => parseStrAux r ('\\' :: acc)
    | '/' :: r => parseStrAux r ('/' :: acc)
    | 'n' :: r => parseStrAux r ('\n' :: acc)
    | 't' :: r => parseStrAux r ('\t' :: acc)
    | 'r' :: r => parseStrAux r ('\r' :: acc)
    | 'b' :: r => parseStrAux r (Char.ofNat 8 :: acc)
    | 'f' :: r => parseStrAux r (Char.ofNat 12 :: acc)
    | 'u' :: h1 :: h2 :: h3 :: h4 :: r =>
      match hexVal h1, hexVal h2, hexVal h3, hexVal h4 with
      | some a, some b, some c, some d =>
        parseStrAux r (Char.ofNat (((a * 16 + b) * 16 + c) * 16 + d) :: acc)
      | _, _, _, _ => none
    | _ => none
  | c :: rest, acc => if c.toNat < 32 then none else parseStrAux rest (c :: acc)

/-- Greedily consume decimal digits. -/
def digitsAux : List Char → Nat → Nat × List Char
  | c :: cs, acc =>
    if '0' ≤ c ∧ c ≤ '9' then digitsAux cs (acc * 10 + (c.toNat - '0'.toNat))
    else (acc, c :: cs)
  | [], acc => (acc, [])

/-- Integer JSON numbers (fractions/exponents are rejected, not misread). -/
def parseNum : List Char → Option (Int × List Char)
  | '-' :: c :: cs =>
    if '0' ≤ c ∧ c ≤ '9' then
      match digitsAux (c :: cs) 0 with
      | (n, rest) =>
        match rest with
        | r :: _ => if r = '.' ∨ r = 'e' ∨ r = 'E' then none else some (-(n : Int), rest)
        | [] => some (-(n : Int), [])
    else none
  | c :: cs =>
    if '0' ≤ c ∧ c ≤ '9' then
      match digitsAux (c :: cs) 0 with
      | (n, rest) =>
        match rest with
        | r :: _ => if r = '.' ∨ r = 'e' ∨ r = 'E' then none else some ((n : Int), rest)
        | [] => some ((n : Int), [])
    else none
  | [] => none

mutual
/-- One JSON value, fuelled (the fuel bounds recursion depth; `parseJson`
supplies more fuel than any input can consume). -/
def parseVal : Nat → List Char → Option (Json × List Char)
  | 0, _ => none
  | fuel + 1, cs =>
    match skipWs cs with
    | 'n' :: 'u' :: 'l' :: 'l' :: rest => some (.null, rest)
    | 't' :: 'r' :: 'u' :: 'e' :: rest => some (.bool true, rest)
    | 'f' :: 'a' :: 'l' :: 's' :: 'e' :: rest => some (.bool false, rest)
    | '"' :: rest => (parseStrAux rest []).map (fun p => (.str p.1, p.2))
    | '[' :: rest =>
      match skipWs rest with
      | ']' :: r => some (.arr [], r)
      | r => parseElems fuel r []
    | '{' :: rest =>
      match skipWs rest with
      | '}' :: r => some (.obj [], r)
      | r => parseFields fuel r []
    | rest => (parseNum rest).map (fun p => (.num p.1, p.2))

/-- Comma-separated array elements up to the closing bracket. -/
def parseElems : Nat → List Char → List Json → Option (Json × List Char)
  | 0, _, _ => none
  | fuel + 1, cs, acc =>
    match parseVal fuel cs with
    | none => none
    | some (v, rest) =>
      match skipWs rest with
      | ',' :: r => parseElems fuel r (v :: acc)
      | ']' :: r => some (.arr (v :: acc).reverse, r)
      | _ => none

/-- Comma-separated `"key": value` fields up to the closing brace. -/
def parseFields : Nat → List Char → List (String × Json) → Option (Json × List Char)
  | 0, _, _ => none
  | fuel + 1, cs, acc =>
    match skipWs cs with
    | '"' :: rest =>
      match parseStrAux rest [] with
      | none => none
      | some (k, rest2) =>
        match skipWs rest2 with
        | ':' :: r =>
          match parseVal fuel r with
          | none => none
          | some (v, rest3) =>
            match skipWs rest3 with
            | ',' :: r2 => parseFields fuel r2 ((k, v) :: acc)
            | '}' :: r2 => some (.obj ((k, v) :: acc).reverse, r2)
            | _ => none
        | _ => none
    | _ => none
end

/-- `JSON.parse`: the whole input must be one value plus whitespace. -/
def parseJson (s : String) : Option Json :=
  match parseVal (s.length + 2) s.data with
  | some (v, rest) => if skipWs rest = [] then some v else none
  | none => none

/-! ## JS string operations used by the consumer -/

/-- JS `s.split('\n')`: `""` gives `[""]`, a trailing newline yields a
final empty piece — exactly the JS semantics. -/
def jsSplitNlAux : List Char → List Char → List String
  | [], acc => [String.mk acc.reverse]
  | c :: cs, acc =>
    if c = '\n' then String.mk acc.reverse :: jsSplitNlAux cs []
    else jsSplitNlAux cs (c :: acc)

/-- JS `chunk.split('\n')`. -/
def jsSplitNl (s : String) : List String :=
  jsSplitNlAux s.data []

/-- JS `line.startsWith(p)` (code-unit based; all protocol markers are
ASCII, where code units and characters coincide). -/
def jsStartsWith (s p : String) : Bool :=
  s.data.take p.data.length == p.data

/-- JS `line.slice(n)` for `n ≥ 0`. -/
def jsSlice (s : String) (n : Nat) : String :=
  String.mk (s.data.drop n)

/-! ## UI state and reducer (`AppContext.js`, lines 5-118)

`Msg` carries the fields of the message objects built in `sendMessage` /
`sendPremiumMessage` that the reducer and UI read.  The `id` and
`timestamp` fields are wall-clock values (`Date.now()`,
`toISOString()`) and do not influence any transition, so they are not
modelled.  On `Msg`, `none` in an optional field models a JS object that
was built without that property (`undefined`). -/
structure Msg where
  session_id : String
  message : String
  sender : String
  suggestions : Option Json := none
  next_steps : Option Json := none
  learning_mode : Option Json := none
deriving Repr

/-- The fields of `initialState` (`AppContext.js` lines 5-21).  `error`
is `none` until a `SET_ERROR` carrying a defined value arrives (`none`
collapses the JS initial `null` and `undefined`, which no reader of the
field distinguishes). -/
structure AppState where
  user : Json := .null
  currentSession : Json := .null
  sessions : List Json := []
  messages : List Msg := []
  isLoading : Bool := false
  error : Option Json := none
  isTyping : Bool := false
  streamingMessage : String := ""
  darkMode : Bool := true
  progress : List (String × Json) := []
  gamificationData : Option Json := none
  achievements : Json := .arr []
  streak : Json := .null
  rewards : Json := .null
deriving Repr

/-- `initialState`. -/
def initialState : AppState := {}

/-- One constructor per member of `ActionTypes` (`AppContext.js` lines
24-43), with the payload type each dispatch site supplies. -/
inductive Action where
  | setLoading (b : Bool)
  | setError (e : Option Json)
  | setUser (u : Json)
  | setCurrentSession (s : Json)
  | setSessions (ss : List Json)
  | addSession (s : Json)
  | setMessages (ms : List Msg)
  | addMessage (m : Msg)
  | setTyping (b : Bool)
  | setStreamingMessage (p : String)
  | clearStreamingMessage
  | toggleDarkMode
  | setProgress (p : List (String × Json))
  | setGamificationData (d : Json)
  | updateStreak (s : Json)
  | addAchievement (a : Json)
  | updateRewards (r : Json)
deriving Repr

/-- The fields of an object value (non-objects spread to nothing, as JS
`{...null}` does; the string/number corner of JS spreading is unused by
every dispatch site). -/
def fieldsOf : Json → List (String × Json)
  | .obj fs => fs
  | _ => []

/-- JS object spread `{...a, ...b}` on field lists: `a`'s keys first with
`b`'s value where overridden, then `b`'s new keys. -/
def spreadMerge (a b : List (String × Json)) : List (String × Json) :=
  (a.map fun p =>
    (p.1, match (Json.obj b).jget p.1 with | some v => v | none => p.2))
    ++ b.filter fun q => ¬ a.any fun p => p.1 = q.1

/-- JS array spread `[...xs, v]`; the state field is always an array at
every dispatch site, non-arrays (on which JS would throw) normalise. -/
def pushJson (a v : Json) : Json :=
  match a with
  | .arr xs => .arr (xs ++ [v])
  | _ => .arr [v]

/-- Optional chaining `o?.k`. -/
def ochain (o : Option Json) (k : String) : Option Json :=
  match o with
  | none => none
  | some .null => none
  | some v => v.jget k

/-- `appReducer` (`AppContext.js` lines 46-118), case for case.  The JS
`default` branch (unknown action type returns the state unchanged) is
vacuous here because `Action` enumerates exactly the dispatched types. -/
def appReducer (state : AppState) (action : Action) : AppState :=
  match action with
  | .setLoading b => { state with isLoading := b }
  | .setError e => { state with error := e, isLoading := false }
  | .setUser u => { state with user := u }
  | .setCurrentSession s => { state with currentSession := s }
  | .setSessions ss => { state with sessions := ss }
  | .addSession s => { state with sessions := s :: state.sessions }
  | .setMessages ms => { state with messages := ms }
  | .addMessage m => { state with messages := state.messages ++ [m] }
  | .setTyping b => { state with isTyping := b }
  | .setStreamingMessage p =>
      { state with streamingMessage := state.streamingMessage ++ p }
  | .clearStreamingMessage => { state with streamingMessage := "" }
  | .toggleDarkMode => { state with darkMode := !state.darkMode }
  | .setProgress p => { state with progress := spreadMerge state.progress p }
  | .setGamificationData d =>
      { state with
        gamificationData := some d,
        achievements := jsOr (ochain (ochain (some d) "achievements") "details") (.arr []),
        streak := jsOr (ochain (some d) "streak") .null,
        rewards := jsOr (ochain (some d) "rewards") .null }
  | .updateStreak s =>
      { state with streak := .obj (spreadMerge (fieldsOf state.streak) (fieldsOf s)) }
  | .addAchievement a => { state with achievements := pushJson state.achievements a }
  | .updateRewards r =>
      { state with rewards := .obj (spreadMerge (fieldsOf state.rewards) (fieldsOf r)) }

/-! ## The stream consumers (`AppContext.js`, lines 228-399)

The consumer threads the local `fullResponse` accumulator next to the
React state it dispatches into. -/

/-- `(fullResponse, state)` during the read loop. -/
abbrev Acc := String × AppState

/-- The frame dispatch of `sendMessage` (lines 275-296): the body of the
inner `try` after `JSON.parse` succeeded.  The implicit JS string
coercion performed by `+=` and by the reducer's `+` is made explicit with
`jsToString` at the single point the content is read. -/
def handleData (sessionId : String) (acc : Acc) (data : Json) : Acc :=
  let (fullResponse, st) := acc
  if typeIs data "chunk" && truthyO (data.jget "content") then
    let c := jsToString ((data.jget "content").getD .null)
    (fullResponse ++ c, appReducer st (.setStreamingMessage c))
  else if typeIs data "complete" then
    let st := appReducer st (.setTyping false)
    let aiMessage : Msg :=
      { session_id := sessionId, message := fullResponse, sender := "mentor",
        suggestions := some (jsOr (data.jget "suggestions") (.arr [])) }
    let st := appReducer st (.addMessage aiMessage)
    let st := appReducer st .clearStreamingMessage
    (fullResponse, st)
  else if typeIs data "error" then
    let st := appReducer st (.setTyping false)
    let st := appReducer st (.setError (data.jget "message"))
    let st := appReducer st .clearStreamingMessage
    (fullResponse, st)
  else acc

/-- The frame dispatch of `sendPremiumMessage` (lines 361-384); identical
except for the extra `next_steps` / `learning_mode` fields of the mentor
message. -/
def handleDataPremium (sessionId : String) (context : Json) (acc : Acc) (data : Json) : Acc :=
  let (fullResponse, st) := acc
  if typeIs data "chunk" && truthyO (data.jget "content") then
    let c := jsToString ((data.jget "content").getD .null)
    (fullResponse ++ c, appReducer st (.setStreamingMessage c))
  else if typeIs data "complete" then
    let st := appReducer st (.setTyping false)
    let aiMessage : Msg :=
      { session_id := sessionId, message := fullResponse, sender := "mentor",
        suggestions := some (jsOr (data.jget "suggestions") (.arr [])),
        next_steps := data.jget "next_steps",
        learning_mode := jsOrO (data.jget "mode") (context.jget "learning_mode") }
    let st := appReducer st (.addMessage aiMessage)
    let st := appReducer st .clearStreamingMessage
    (fullResponse, st)
  else if typeIs data "error" then
    let st := appReducer st (.setTyping false)
    let st := appReducer st (.setError (data.jget "message"))
    let st := appReducer st .clearStreamingMessage
    (fullResponse, st)
  else acc

/-- One pass of the `for (const line of lines)` body (lines 270-300):
only `data: `-prefixed lines are considered; a payload `JSON.parse`
rejects is swallowed by the inner `catch` (a logged warning, no state
change).  A parsed primitive on which the JS property accesses throw
(e.g. `null.type`) is likewise swallowed by the same `catch`; here
`jget` returns `none` for it and no branch fires — the same no-op. -/
def processLine (handle : Acc → Json → Acc) (acc : Acc) (line : String) : Acc :=
  if jsStartsWith line "data: " then
    match parseJson (jsSlice line 6) with
    | some data => handle acc data
    | none => acc
  else acc

/-- One `reader.read()` result (lines 264-301): decode, split on
newlines, dispatch each line.  No part of a read is carried over to the
next read — there is no buffer for a line left incomplete at the end of
a read. -/
def processRead (handle : Acc → Json → Acc) (acc : Acc) (chunk : String) : Acc :=
  (jsSplitNl chunk).foldl (processLine handle) acc

/-- The whole `while (true)` read loop. -/
def processReads (handle : Acc → Json → Acc) (acc : Acc) (reads : List String) : Acc :=
  reads.foldl (processRead handle) acc

/-- Outcome of the `fetch` and subsequent body reads, as far as the
consumer can observe it: a non-OK response, or an OK response whose body
delivers `reads` (each one decoded read) and then either ends (`none`)
or makes the next `read()` throw an error with the given message. -/
inductive FetchResult where
  | notOk
  | ok (reads : List String) (thenThrow : Option String)
deriving Repr

/-- `sendMessage` (lines 228-311): final state together with the JS
outcome — `Except.ok fullResponse` for a normal return, `Except.error m`
when the function rethrows an error whose `.message` is `m`. -/
def sendMessage (st : AppState) (sessionId message : String) (r : FetchResult) :
    AppState × Except String String :=
  let userMessage : Msg := { session_id := sessionId, message := message, sender := "user" }
  let st := appReducer st (.addMessage userMessage)
  let st := appReducer st (.setTyping true)
  let st := appReducer st .clearStreamingMessage
  match r with
  | .notOk =>
    -- `throw new Error('Failed to send message')`, then the catch block
    let st := appReducer st (.setTyping false)
    let st := appReducer st .clearStreamingMessage
    let st := appReducer st (.setError (some (.str "Failed to send message")))
    (st, .error "Failed to send message")
  | .ok reads thenThrow =>
    let acc := processReads (handleData sessionId) ("", st) reads
    match thenThrow with
    | none => (acc.2, .ok acc.1)
    | some m =>
      let st := appReducer acc.2 (.setTyping false)
      let st := appReducer st .clearStreamingMessage
      let st := appReducer st (.setError (some (.str m)))
      (st, .error m)

/-- `sendPremiumMessage` (lines 313-399). -/
def sendPremiumMessage (st : AppState) (sessionId message : String) (context : Json)
    (r : FetchResult) : AppState × Except String String :=
  let userMessage : Msg := { session_id := sessionId, message := message, sender := "user" }
  let st := appReducer st (.addMessage userMessage)
  let st := appReducer st (.setTyping true)
  let st := appReducer st .clearStreamingMessage
  match r with
  | .notOk =>
    let st := appReducer st (.setTyping false)
    let st := appReducer st .clearStreamingMessage
    let st := appReducer st (.setError (some (.str "Failed to send premium message")))
    (st, .error "Failed to send premium message")
  | .ok reads thenThrow =>
    let acc := processReads (handleDataPremium sessionId context) ("", st) reads
    match thenThrow with
    | none => (acc.2, .ok acc.1)
    | some m =>
      let st := appReducer acc.2 (.setTyping false)
      let st := appReducer st .clearStreamingMessage
      let st := appReducer st (.setError (some (.str m)))
      (st, .error m)

/-! ## The submit guard (`ChatInterface.js`) -/

/-- What a submit attempt does before any network traffic. -/
inductive SubmitOutcome where
  | rejected
  | proceed (message : String)
deriving Repr, DecidableEq

/-- `handleSendMessage` up to the point the chosen send path is entered
(lines 56-61): the guard
`if (!inputMessage.trim() || !state.currentSession || state.isTyping) return;`
followed by `const message = inputMessage.trim()`. -/
def handleSendMessage (inputMessage : String) (currentSession : Json) (isTyping : Bool) :
    SubmitOutcome :=
  if inputMessage.trim = "" ∨ truthy currentSession = false ∨ isTyping = true then .rejected
  else .proceed inputMessage.trim

/-- The submit button's `disabled={!inputMessage.trim() || state.isTyping}`
(lines 367-370).  The button only renders when `state.currentSession` is
truthy (the component returns the welcome card otherwise, line 105). -/
def sendButtonDisabled (inputMessage : String) (isTyping : Bool) : Bool :=
  inputMessage.trim == "" || isTyping

/-- The text input's `disabled={state.isTyping}` (line 360). -/
def chatInputDisabled (isTyping : Bool) : Bool := isTyping

/-! ## Specification-side vocabulary -/

/-- Ordered concatenation of a list of strings. -/
def concatList : List String → String
  | [] => ""
  | c :: cs => c ++ concatList cs

/-- The user message `sendMessage` appends before opening the request
(modelled fields). -/
def userMsg (sid msg : String) : Msg :=
  { session_id := sid, message := msg, sender := "user" }

/-- A string free of newlines — the frames of the wire format are single
lines. -/
def NoNl (s : String) : Prop := ∀ c ∈ s.data, c ≠ '\n'

/-- A well-formed chunk frame line carrying content `c`. -/
def ChunkLine (l c : String) : Prop :=
  NoNl l ∧ jsStartsWith l "data: " = true ∧
    ∃ data, parseJson (jsSlice l 6) = some data ∧
      data.jget "type" = some (.str "chunk") ∧ data.jget "content" = some (.str c)

/-- A well-formed complete frame line. -/
def CompleteLine (l : String) : Prop :=
  NoNl l ∧ jsStartsWith l "data: " = true ∧
    ∃ data, parseJson (jsSlice l 6) = some data ∧
      data.jget "type" = some (.str "complete")

/-- A well-formed error frame line whose `message` property is `m`
(`none` for an absent property). -/
def ErrorLine (l : String) (m : Option Json) : Prop :=
  NoNl l ∧ jsStartsWith l "data: " = true ∧
    ∃ data, parseJson (jsSlice l 6) = some data ∧
      data.jget "type" = some (.str "error") ∧ data.jget "message" = m

/-- A chunk frame line whose content is missing, null or empty. -/
def EmptyChunkLine (l : String) : Prop :=
  jsStartsWith l "data: " = true ∧
    ∃ data, parseJson (jsSlice l 6) = some data ∧
      data.jget "type" = some (.str "chunk") ∧
      (data.jget "content" = none ∨ data.jget "content" = some .null ∨
        data.jget "content" = some (.str ""))

/-- `InsNoop P l l'` holds when `l'` is `l` with extra elements satisfying
`P` inserted at arbitrary positions. -/
inductive InsNoop (P : String → Prop) : List String → List String → Prop where
  | nil : InsNoop P [] []
  | keep {l l' : List String} (a : String) : InsNoop P l l' → InsNoop P (a :: l) (a :: l')
  | ins {l l' : List String} (e : String) : P e → InsNoop P l l' → InsNoop P l (e :: l')

/-- The payload of a `SET_STREAMING_MESSAGE` action, if the action is one. -/
def setStreamingPayload : Action → Option String
  | .setStreamingMessage p => some p
  | _ => none

/-- Whether an action is `CLEAR_STREAMING_MESSAGE`. -/
def isClearStreaming : Action → Bool
  | .clearStreamingMessage => true
  | _ => false

/-- The actions dispatched after the last `CLEAR_STREAMING_MESSAGE` of the
list, or `none` when no clear occurs. -/
def afterLastClear : List Action → Option (List Action)
  | [] => none
  | a :: rest =>
    match afterLastClear rest with
    | some suf => some suf
    | none => if isClearStreaming a then some rest else none

/-! ## Frame-level lemmas -/

lemma handleData_chunk (sid fr : String) (st : AppState) (data : Json) (c : String)
    (ht : data.jget "type" = some (.str "chunk"))
    (hc : data.jget "content" = some (.str c)) :
    handleData sid (fr, st) data
      = (fr ++ c, { st with streamingMessage := st.streamingMessage ++ c }) := by
  by_cases hce : c = ""
  · subst hce
    simp [handleData, typeIs, ht, hc, truthyO, truthy]
  · simp [handleData, typeIs, ht, hc, truthyO, truthy, hce, jsToString, appReducer]

lemma handleData_complete (sid fr : String) (st : AppState) (data : Json)
    (ht : data.jget "type" = some (.str "complete")) :
    handleData sid (fr, st) data
      = (fr, { st with
                isTyping := false,
                messages := st.messages ++
                  [{ session_id := sid, message := fr, sender := "mentor",
                     suggestions := some (jsOr (data.jget "suggestions") (.arr [])) }],
                streamingMessage := "" }) := by
  simp [handleData, typeIs, ht, appReducer]

lemma handleData_error (sid fr : String) (st : AppState) (data : Json)
    (ht : data.jget "type" = some (.str "error")) :
    handleData sid (fr, st) data
      = (fr, { st with
                isLoading := false,
                error := data.jget "message",
                isTyping := false,
                streamingMessage := "" }) := by
  simp [handleData, typeIs, ht, appReducer]

lemma handleData_chunk_falsy (sid : String) (acc : Acc) (data : Json)
    (ht : data.jget "type" = some (.str "chunk"))
    (hc : truthyO (data.jget "content") = false) :
    handleData sid acc data = acc := by
  obtain ⟨fr, st⟩ := acc
  simp [handleData, typeIs, ht, hc]

/-! ## Line- and read-level lemmas -/

lemma processLine_not_data (h : Acc → Json → Acc) (acc : Acc) (l : String)
    (hs : jsStartsWith l "data: " = false) : processLine h acc l = acc := by
  simp [processLine, hs]

lemma processLine_malformed (h : Acc → Json → Acc) (acc : Acc) (l : String)
    (hs : jsStartsWith l "data: " = true) (hp : parseJson (jsSlice l 6) = none) :
    processLine h acc l = acc := by
  simp [processLine, hs, hp]

lemma processLine_empty_line (h : Acc → Json → Acc) (acc : Acc) :
    processLine h acc "" = acc := rfl

lemma processLine_chunk (sid : String) (l c : String) (hl : ChunkLine l c)
    (fr : String) (st : AppState) :
    processLine (handleData sid) (fr, st) l
      = (fr ++ c, { st with streamingMessage := st.streamingMessage ++ c }) := by
  obtain ⟨-, hs, data, hp, ht, hc⟩ := hl
  simp [processLine, hs, hp, handleData_chunk sid fr st data c ht hc]

lemma jsSplitNlAux_append_nl (xs : List Char) :
    ∀ acc, (∀ c ∈ xs, c ≠ '\n') →
      jsSplitNlAux (xs ++ ['\n']) acc = [String.mk (acc.reverse ++ xs), ""] := by
  induction xs with
  | nil => intro acc _; simp [jsSplitNlAux]
  | cons c xs ih =>
    intro acc hx
    have hc : c ≠ '\n' := hx c (by simp)
    have step : jsSplitNlAux ((c :: xs) ++ ['\n']) acc = jsSplitNlAux (xs ++ ['\n']) (c :: acc) := by
      simp [jsSplitNlAux, hc]
    rw [step, ih (c :: acc) (fun d hd => hx d (by simp [hd]))]
    simp

lemma data_append (a b : String) : (a ++ b).data = a.data ++ b.data := by
  cases a; cases b; rfl

lemma jsSplitNl_line (l : String) (h : NoNl l) : jsSplitNl (l ++ "\n") = [l, ""] := by
  have : (l ++ "\n").data = l.data ++ ['\n'] := by rw [data_append]
  rw [jsSplitNl, this, jsSplitNlAux_append_nl l.data [] h]
  simp

lemma processRead_line (h : Acc → Json → Acc) (acc : Acc) (l : String) (hl : NoNl l) :
    processRead h acc (l ++ "\n") = processLine h acc l := by
  rw [processRead, jsSplitNl_line l hl]
  simp [processLine_empty_line]

lemma processReads_lines (h : Acc → Json → Acc) :
    ∀ (ls : List String) (acc : Acc), (∀ l ∈ ls, NoNl l) →
      processReads h acc (ls.map (fun l => l ++ "\n")) = ls.foldl (processLine h) acc := by
  intro ls
  induction ls with
  | nil => intro acc _; rfl
  | cons l ls ih =>
    intro acc hls
    rw [List.map_cons, processReads, List.foldl_cons]
    rw [show List.foldl (processRead h) (processRead h acc (l ++ "\n"))
          (ls.map (fun l => l ++ "\n"))
        = processReads h (processRead h acc (l ++ "\n")) (ls.map (fun l => l ++ "\n")) from rfl]
    rw [ih _ (fun x hx => hls x (by simp [hx])),
        processRead_line h acc l (hls l (by simp)), List.foldl_cons]

lemma processLine_complete (sid : String) (l : String) (hl : CompleteLine l)
    (fr : String) (st : AppState) :
    ∃ sug : Json,
      processLine (handleData sid) (fr, st) l
        = (fr, { st with
                  isTyping := false,
                  messages := st.messages ++
                    [{ session_id := sid, message := fr, sender := "mentor",
                       suggestions := some sug }],
                  streamingMessage := "" }) := by
  obtain ⟨-, hs, data, hp, ht⟩ := hl
  exact ⟨jsOr (data.jget "suggestions") (.arr []),
    by simp [processLine, hs, hp, handleData_complete sid fr st data ht]⟩

lemma processLine_error (sid : String) (l : String) (m : Option Json)
    (hl : ErrorLine l m) (fr : String) (st : AppState) :
    processLine (handleData sid) (fr, st) l
      = (fr, { st with
                isLoading := false, error := m, isTyping := false,
                streamingMessage := "" }) := by
  obtain ⟨-, hs, data, hp, ht, hm⟩ := hl
  rw [← hm]
  simp [processLine, hs, hp, handleData_error sid fr st data ht]

lemma chunk_fold (sid : String) :
    ∀ {ls cs : List String}, List.Forall₂ ChunkLine ls cs → ∀ (fr : String) (st : AppState),
      ls.foldl (processLine (handleData sid)) (fr, st)
        = (fr ++ concatList cs,
           { st with streamingMessage := st.streamingMessage ++ concatList cs }) := by
  intro ls cs h
  induction h with
  | nil => intro fr st; simp [concatList]
  | cons h1 _ ih =>
    intro fr st
    rw [List.foldl_cons, processLine_chunk sid _ _ h1, ih]
    simp [concatList, String.append_assoc]

/-! Premium-path analogues (the source duplicates the loop body). -/

lemma handleDataPremium_chunk (sid : String) (ctx : Json) (fr : String) (st : AppState)
    (data : Json) (c : String)
    (ht : data.jget "type" = some (.str "chunk"))
    (hc : data.jget "content" = some (.str c)) :
    handleDataPremium sid ctx (fr, st) data
      = (fr ++ c, { st with streamingMessage := st.streamingMessage ++ c }) := by
  by_cases hce : c = ""
  · subst hce
    simp [handleDataPremium, typeIs, ht, hc, truthyO, truthy]
  · simp [handleDataPremium, typeIs, ht, hc, truthyO, truthy, hce, jsToString, appReducer]

lemma handleDataPremium_complete (sid : String) (ctx : Json) (fr : String) (st : AppState)
    (data : Json) (ht : data.jget "type" = some (.str "complete")) :
    handleDataPremium sid ctx (fr, st) data
      = (fr, { st with
                isTyping := false,
                messages := st.messages ++
                  [{ session_id := sid, message := fr, sender := "mentor",
                     suggestions := some (jsOr (data.jget "suggestions") (.arr [])),
                     next_steps := data.jget "next_steps",
                     learning_mode := jsOrO (data.jget "mode") (ctx.jget "learning_mode") }],
                streamingMessage := "" }) := by
  simp [handleDataPremium, typeIs, ht, appReducer]

lemma handleDataPremium_error (sid : String) (ctx : Json) (fr : String) (st : AppState)
    (data : Json) (ht : data.jget "type" = some (.str "error")) :
    handleDataPremium sid ctx (fr, st) data
      = (fr, { st with
                isLoading := false,
                error := data.jget "message",
                isTyping := false,
                streamingMessage := "" }) := by
  simp [handleDataPremium, typeIs, ht, appReducer]

lemma processLine_chunkP (sid : String) (ctx : Json) (l c : String) (hl : ChunkLine l c)
    (fr : String) (st : AppState) :
    processLine (handleDataPremium sid ctx) (fr, st) l
      = (fr ++ c, { st with streamingMessage := st.streamingMessage ++ c }) := by
  obtain ⟨-, hs, data, hp, ht, hc⟩ := hl
  simp [processLine, hs, hp, handleDataPremium_chunk sid ctx fr st data c ht hc]

lemma processLine_completeP (sid : String) (ctx : Json) (l : String) (hl : CompleteLine l)
    (fr : String) (st : AppState) :
    ∃ sug ns lm,
      processLine (handleDataPremium sid ctx) (fr, st) l
        = (fr, { st with
                  isTyping := false,
                  messages := st.messages ++
                    [{ session_id := sid, message := fr, sender := "mentor",
                       suggestions := some sug, next_steps := ns, learning_mode := lm }],
                  streamingMessage := "" }) := by
  obtain ⟨-, hs, data, hp, ht⟩ := hl
  exact ⟨jsOr (data.jget "suggestions") (.arr []), data.jget "next_steps",
    jsOrO (data.jget "mode") (ctx.jget "learning_mode"),
    by simp [processLine, hs, hp, handleDataPremium_complete sid ctx fr st data ht]⟩

lemma processLine_errorP (sid : String) (ctx : Json) (l : String) (m : Option Json)
    (hl : ErrorLine l m) (fr : String) (st : AppState) :
    processLine (handleDataPremium sid ctx) (fr, st) l
      = (fr, { st with
                isLoading := false, error := m, isTyping := false,
                streamingMessage := "" }) := by
  obtain ⟨-, hs, data, hp, ht, hm⟩ := hl
  rw [← hm]
  simp [processLine, hs, hp, handleDataPremium_error sid ctx fr st data ht]

lemma chunk_foldP (sid : String) (ctx : Json) :
    ∀ {ls cs : List String}, List.Forall₂ ChunkLine ls cs → ∀ (fr : String) (st : AppState),
      ls.foldl (processLine (handleDataPremium sid ctx)) (fr, st)
        = (fr ++ concatList cs,
           { st with streamingMessage := st.streamingMessage ++ concatList cs }) := by
  intro ls cs h
  induction h with
  | nil => intro fr st; simp [concatList]
  | cons h1 _ ih =>
    intro fr st
    rw [List.foldl_cons, processLine_chunkP sid ctx _ _ h1, ih]
    simp [concatList, String.append_assoc]

/-! ## Unfolding the consumers up to the read loop -/

/-- The state after the user message is appended and the typing/streaming
flags are initialised (lines 230-242). -/
def startState (st : AppState) (sid msg : String) : AppState :=
  { st with
    messages := st.messages ++ [userMsg sid msg],
    isTyping := true,
    streamingMessage := "" }

lemma sendMessage_ok_none (st : AppState) (sid msg : String) (reads : List String) :
    sendMessage st sid msg (.ok reads none)
      = ((processReads (handleData sid) ("", startState st sid msg) reads).2,
         .ok (processReads (handleData sid) ("", startState st sid msg) reads).1) := rfl

lemma sendMessage_ok_throw (st : AppState) (sid msg : String) (reads : List String)
    (m : String) :
    sendMessage st sid msg (.ok reads (some m))
      = ({ (processReads (handleData sid) ("", startState st sid msg) reads).2 with
            isTyping := false, streamingMessage := "",
            error := some (.str m), isLoading := false },
         .error m) := rfl

lemma sendMessage_notOk (st : AppState) (sid msg : String) :
    sendMessage st sid msg .notOk
      = ({ startState st sid msg with
            isTyping := false, streamingMessage := "",
            error := some (.str "Failed to send message"), isLoading := false },
         .error "Failed to send message") := rfl

lemma sendPremiumMessage_ok_none (st : AppState) (sid msg : String) (ctx : Json)
    (reads : List String) :
    sendPremiumMessage st sid msg ctx (.ok reads none)
      = ((processReads (handleDataPremium sid ctx) ("", startState st sid msg) reads).2,
         .ok (processReads (handleDataPremium sid ctx) ("", startState st sid msg) reads).1) := rfl

lemma sendPremiumMessage_ok_throw (st : AppState) (sid msg : String) (ctx : Json)
    (reads : List String) (m : String) :
    sendPremiumMessage st sid msg ctx (.ok reads (some m))
      = ({ (processReads (handleDataPremium sid ctx) ("", startState st sid msg) reads).2 with
            isTyping := false, streamingMessage := "",
            error := some (.str m), isLoading := false },
         .error m) := rfl

lemma sendPremiumMessage_notOk (st : AppState) (sid msg : String) (ctx : Json) :
    sendPremiumMessage st sid msg ctx .notOk
      = ({ startState st sid msg with
            isTyping := false, streamingMessage := "",
            error := some (.str "Failed to send premium message"), isLoading := false },
         .error "Failed to send premium message") := rfl

/-! ## Messages grow monotonically through the read loop -/

lemma foldl_messages_ext {γ : Type} (step : Acc → γ → Acc)
    (hstep : ∀ acc x, ∃ t, (step acc x).2.messages = acc.2.messages ++ t) :
    ∀ (xs : List γ) (acc : Acc),
      ∃ t, (xs.foldl step acc).2.messages = acc.2.messages ++ t := by
  intro xs
  induction xs with
  | nil => intro acc; exact ⟨[], by simp⟩
  | cons x xs ih =>
    intro acc
    obtain ⟨t1, h1⟩ := hstep acc x
    obtain ⟨t2, h2⟩ := ih (step acc x)
    exact ⟨t1 ++ t2, by rw [List.foldl_cons, h2, h1, List.append_assoc]⟩

lemma handleData_messages (sid : String) (acc : Acc) (data : Json) :
    ∃ t, (handleData sid acc data).2.messages = acc.2.messages ++ t := by
  obtain ⟨fr, st⟩ := acc
  unfold handleData
  dsimp only
  split
  · exact ⟨[], by simp [appReducer]⟩
  · split
    · exact ⟨[{ session_id := sid, message := fr, sender := "mentor",
                suggestions := some (jsOr (data.jget "suggestions") (.arr [])) }],
        by simp [appReducer]⟩
    · split
      · exact ⟨[], by simp [appReducer]⟩
      · exact ⟨[], by simp⟩

lemma handleDataPremium_messages (sid : String) (ctx : Json) (acc : Acc) (data : Json) :
    ∃ t, (handleDataPremium sid ctx acc data).2.messages = acc.2.messages ++ t := by
  obtain ⟨fr, st⟩ := acc
  unfold handleDataPremium
  dsimp only
  split
  · exact ⟨[], by simp [appReducer]⟩
  · split
    · exact ⟨[{ session_id := sid, message := fr, sender := "mentor",
                suggestions := some (jsOr (data.jget "suggestions") (.arr [])),
                next_steps := data.jget "next_steps",
                learning_mode := jsOrO (data.jget "mode") (ctx.jget "learning_mode") }],
        by simp [appReducer]⟩
    · split
      · exact ⟨[], by simp [appReducer]⟩
      · exact ⟨[], by simp⟩

lemma processLine_messages (h : Acc → Json → Acc)
    (hh : ∀ acc data, ∃ t, (h acc data).2.messages = acc.2.messages ++ t)
    (acc : Acc) (l : String) :
    ∃ t, (processLine h acc l).2.messages = acc.2.messages ++ t := by
  unfold processLine
  split
  · split
    · exact hh _ _
    · exact ⟨[], by simp⟩
  · exact ⟨[], by simp⟩

lemma processReads_messages (h : Acc → Json → Acc)
    (hh : ∀ acc data, ∃ t, (h acc data).2.messages = acc.2.messages ++ t)
    (reads : List String) (acc : Acc) :
    ∃ t, (processReads h acc reads).2.messages = acc.2.messages ++ t :=
  foldl_messages_ext _
    (fun a r => foldl_messages_ext _ (processLine_messages h hh) (jsSplitNl r) a)
    reads acc

/-! ## A read whose processing agrees pointwise can be exchanged -/

lemma foldl_mid_congr {α β : Type} (f : β → α → β) (xs ys : List α) (y y' : α)
    (hyy : ∀ b, f b y = f b y') (a : β) :
    (xs ++ y :: ys).foldl f a = (xs ++ y' :: ys).foldl f a := by
  rw [List.foldl_append, List.foldl_append, List.foldl_cons, List.foldl_cons, hyy]

lemma chunkLines_noNl {ls cs : List String} (h : List.Forall₂ ChunkLine ls cs) :
    ∀ l ∈ ls, NoNl l := by
  induction h with
  | nil => simp
  | cons h1 _ ih =>
    intro l hl
    rcases List.mem_cons.mp hl with rfl | hl
    · exact h1.1
    · exact ih l hl

lemma chunks_then_line (sid : String) {ls cs : List String}
    (hls : List.Forall₂ ChunkLine ls cs) (lt : String) (hnl : NoNl lt) (st : AppState)
    (hstream : st.streamingMessage = "") :
    processReads (handleData sid) ("", st) ((ls ++ [lt]).map (fun l => l ++ "\n"))
      = processLine (handleData sid)
          (concatList cs, { st with streamingMessage := concatList cs }) lt := by
  have hmem : ∀ l ∈ ls ++ [lt], NoNl l := by
    intro l hl
    rcases List.mem_append.mp hl with h | h
    · exact chunkLines_noNl hls l h
    · rw [List.mem_singleton.mp h]; exact hnl
  rw [processReads_lines _ _ _ hmem, List.foldl_append, chunk_fold sid hls "" st,
    List.foldl_cons, List.foldl_nil, String.empty_append, hstream, String.empty_append]

lemma chunks_then_lineP (sid : String) (ctx : Json) {ls cs : List String}
    (hls : List.Forall₂ ChunkLine ls cs) (lt : String) (hnl : NoNl lt) (st : AppState)
    (hstream : st.streamingMessage = "") :
    processReads (handleDataPremium sid ctx) ("", st) ((ls ++ [lt]).map (fun l => l ++ "\n"))
      = processLine (handleDataPremium sid ctx)
          (concatList cs, { st with streamingMessage := concatList cs }) lt := by
  have hmem : ∀ l ∈ ls ++ [lt], NoNl l := by
    intro l hl
    rcases List.mem_append.mp hl with h | h
    · exact chunkLines_noNl hls l h
    · rw [List.mem_singleton.mp h]; exact hnl
  rw [processReads_lines _ _ _ hmem, List.foldl_append, chunk_foldP sid ctx hls "" st,
    List.foldl_cons, List.foldl_nil, String.empty_append, hstream, String.empty_append]

/-!
# The claims
-/

/-- **C1.**  For every stream of N well-formed chunk frames followed by one
complete frame, the consumer (`sendMessage` and `sendPremiumMessage`)
finishes with a mentor message whose text is the concatenation of the N
chunk contents in arrival order — no reordering, no loss. -/
theorem sendMessage_concatenates_chunks_in_order :
    (∀ (st : AppState) (sid msg : String) (ls cs : List String) (lc : String),
      List.Forall₂ ChunkLine ls cs → CompleteLine lc →
      ∃ ai : Msg,
        (sendMessage st sid msg (.ok ((ls ++ [lc]).map (fun l => l ++ "\n")) none)).1.messages
            = st.messages ++ [userMsg sid msg, ai]
          ∧ ai.message = concatList cs ∧ ai.sender = "mentor"
          ∧ (sendMessage st sid msg (.ok ((ls ++ [lc]).map (fun l => l ++ "\n")) none)).2
              = .ok (concatList cs))
    ∧ (∀ (st : AppState) (sid msg : String) (ctx : Json) (ls cs : List String) (lc : String),
      List.Forall₂ ChunkLine ls cs → CompleteLine lc →
      ∃ ai : Msg,
        (sendPremiumMessage st sid msg ctx
              (.ok ((ls ++ [lc]).map (fun l => l ++ "\n")) none)).1.messages
            = st.messages ++ [userMsg sid msg, ai]
          ∧ ai.message = concatList cs ∧ ai.sender = "mentor"
          ∧ (sendPremiumMessage st sid msg ctx
              (.ok ((ls ++ [lc]).map (fun l => l ++ "\n")) none)).2
              = .ok (concatList cs)) := by
  constructor
  · intro st sid msg ls cs lc hls hlc
    obtain ⟨sug, hlast⟩ := processLine_complete sid lc hlc (concatList cs)
      { startState st sid msg with streamingMessage := concatList cs }
    refine ⟨{ session_id := sid, message := concatList cs, sender := "mentor",
              suggestions := some sug }, ?_, rfl, rfl, ?_⟩
    · rw [sendMessage_ok_none, chunks_then_line sid hls lc hlc.1 _ rfl, hlast]
      simp [startState, userMsg]
    · rw [sendMessage_ok_none, chunks_then_line sid hls lc hlc.1 _ rfl, hlast]
  · intro st sid msg ctx ls cs lc hls hlc
    obtain ⟨sug, ns, lm, hlast⟩ := processLine_completeP sid ctx lc hlc (concatList cs)
      { startState st sid msg with streamingMessage := concatList cs }
    refine ⟨{ session_id := sid, message := concatList cs, sender := "mentor",
              suggestions := some sug, next_steps := ns, learning_mode := lm }, ?_, rfl, rfl, ?_⟩
    · rw [sendPremiumMessage_ok_none, chunks_then_lineP sid ctx hls lc hlc.1 _ rfl, hlast]
      simp [startState, userMsg]
    · rw [sendPremiumMessage_ok_none, chunks_then_lineP sid ctx hls lc hlc.1 _ rfl, hlast]

/-- **C2.**  The same two frames delivered as one read yield the mentor
text `"hi"`, but delivered with the read boundary inside the first frame
(identical bytes, since the two reads concatenate to the one read) the
chunk is dropped and the mentor text is empty: the consumer does *not*
buffer a partial frame across reads, so parsing is not invariant under
re-chunking of the transport reads. -/
theorem split_frame_is_dropped :
    "data: \x7b\"typ" ++ "e\":\"chunk\",\"content\":\"hi\"\x7d\ndata: \x7b\"type\":\"complete\"\x7d\n"
        = "data: \x7b\"type\":\"chunk\",\"content\":\"hi\"\x7d\ndata: \x7b\"type\":\"complete\"\x7d\n"
    ∧ (sendMessage initialState "s1" "q"
        (.ok ["data: \x7b\"type\":\"chunk\",\"content\":\"hi\"\x7d\ndata: \x7b\"type\":\"complete\"\x7d\n"]
          none)).1.messages
        = [userMsg "s1" "q",
           { session_id := "s1", message := "hi", sender := "mentor",
             suggestions := some (.arr []) }]
    ∧ (sendMessage initialState "s1" "q"
        (.ok ["data: \x7b\"typ",
              "e\":\"chunk\",\"content\":\"hi\"\x7d\ndata: \x7b\"type\":\"complete\"\x7d\n"]
          none)).1.messages
        = [userMsg "s1" "q",
           { session_id := "s1", message := "", sender := "mentor",
             suggestions := some (.arr []) }]
    ∧ (sendMessage initialState "s1" "q"
        (.ok ["data: \x7b\"type\":\"chunk\",\"content\":\"hi\"\x7d\ndata: \x7b\"type\":\"complete\"\x7d\n"]
          none)).2 = .ok "hi"
    ∧ (sendMessage initialState "s1" "q"
        (.ok ["data: \x7b\"typ",
              "e\":\"chunk\",\"content\":\"hi\"\x7d\ndata: \x7b\"type\":\"complete\"\x7d\n"]
          none)).2 = .ok "" :=
  ⟨rfl, rfl, rfl, rfl, rfl⟩

/-- **C3, counterexample.**  After a chunk frame carrying `"hi"` and then
an error frame, the partial content survives nowhere in UI-visible state:
`streamingMessage` is cleared, the message list holds only the user
message (nothing is flagged as failed), the error is set and typing is
off — the claim that partial content is preserved and flagged failed is
false on this input. -/
theorem error_after_chunk_keeps_nothing :
    (sendMessage initialState "s1" "q"
      (.ok ["data: \x7b\"type\":\"chunk\",\"content\":\"hi\"\x7d\n",
            "data: \x7b\"type\":\"error\",\"message\":\"boom\"\x7d\n"] none)).1.streamingMessage = ""
    ∧ (sendMessage initialState "s1" "q"
      (.ok ["data: \x7b\"type\":\"chunk\",\"content\":\"hi\"\x7d\n",
            "data: \x7b\"type\":\"error\",\"message\":\"boom\"\x7d\n"] none)).1.messages
        = [userMsg "s1" "q"]
    ∧ (sendMessage initialState "s1" "q"
      (.ok ["data: \x7b\"type\":\"chunk\",\"content\":\"hi\"\x7d\n",
            "data: \x7b\"type\":\"error\",\"message\":\"boom\"\x7d\n"] none)).1.error
        = some (.str "boom")
    ∧ (sendMessage initialState "s1" "q"
      (.ok ["data: \x7b\"type\":\"chunk\",\"content\":\"hi\"\x7d\n",
            "data: \x7b\"type\":\"error\",\"message\":\"boom\"\x7d\n"] none)).1.isTyping = false :=
  ⟨rfl, rfl, rfl, rfl⟩

/-- **C3, amended.**  On an error frame after any chunk frames, both
consumers *discard* the partial accumulated content: `streamingMessage`
is cleared, typing stops, the error is surfaced, and no message of any
kind is appended beyond the user message — the UI state is the same as
if no chunk had ever arrived (the partial text survives only in the
function's return value). -/
theorem error_frame_discards_partial_content :
    (∀ (st : AppState) (sid msg : String) (ls cs : List String) (le : String) (m : Option Json),
      List.Forall₂ ChunkLine ls cs → ErrorLine le m →
        (sendMessage st sid msg (.ok ((ls ++ [le]).map (fun l => l ++ "\n")) none)).1.streamingMessage = ""
        ∧ (sendMessage st sid msg (.ok ((ls ++ [le]).map (fun l => l ++ "\n")) none)).1.isTyping = false
        ∧ (sendMessage st sid msg (.ok ((ls ++ [le]).map (fun l => l ++ "\n")) none)).1.error = m
        ∧ (sendMessage st sid msg (.ok ((ls ++ [le]).map (fun l => l ++ "\n")) none)).1.messages
            = st.messages ++ [userMsg sid msg]
        ∧ (sendMessage st sid msg (.ok ((ls ++ [le]).map (fun l => l ++ "\n")) none)).2
            = .ok (concatList cs))
    ∧ (∀ (st : AppState) (sid msg : String) (ctx : Json) (ls cs : List String)
        (le : String) (m : Option Json),
      List.Forall₂ ChunkLine ls cs → ErrorLine le m →
        (sendPremiumMessage st sid msg ctx
            (.ok ((ls ++ [le]).map (fun l => l ++ "\n")) none)).1.streamingMessage = ""
        ∧ (sendPremiumMessage st sid msg ctx
            (.ok ((ls ++ [le]).map (fun l => l ++ "\n")) none)).1.isTyping = false
        ∧ (sendPremiumMessage st sid msg ctx
            (.ok ((ls ++ [le]).map (fun l => l ++ "\n")) none)).1.messages
            = st.messages ++ [userMsg sid msg]) := by
  constructor
  · intro st sid msg ls cs le m hls hle
    rw [sendMessage_ok_none, chunks_then_line sid hls le hle.1 _ rfl,
      processLine_error sid le m hle]
    exact ⟨rfl, rfl, rfl, rfl, rfl⟩
  · intro st sid msg ctx ls cs le m hls hle
    rw [sendPremiumMessage_ok_none, chunks_then_lineP sid ctx hls le hle.1 _ rfl,
      processLine_errorP sid ctx le m hle]
    exact ⟨rfl, rfl, rfl⟩

/-- **C4.**  A malformed `data: `-prefixed line (its payload fails to
parse) anywhere in a read is a no-op: replacing a read whose lines are
`pre ++ [bad] ++ post` by one whose lines are `pre ++ post` leaves
`sendMessage` — final state *and* returned value — unchanged, for every
surrounding stream and every transport ending. -/
theorem malformed_frame_is_skipped (st : AppState) (sid msg bad : String)
    (hs : jsStartsWith bad "data: " = true) (hp : parseJson (jsSlice bad 6) = none)
    (rs1 rs2 pre post : List String) (r1 r2 : String)
    (h1 : jsSplitNl r1 = pre ++ bad :: post) (h2 : jsSplitNl r2 = pre ++ post)
    (t : Option String) :
    sendMessage st sid msg (.ok (rs1 ++ r1 :: rs2) t)
      = sendMessage st sid msg (.ok (rs1 ++ r2 :: rs2) t) := by
  have hline : ∀ acc, processLine (handleData sid) acc bad = acc :=
    fun acc => processLine_malformed _ acc bad hs hp
  have hread : ∀ acc, processRead (handleData sid) acc r1 = processRead (handleData sid) acc r2 := by
    intro acc
    rw [processRead, processRead, h1, h2, List.foldl_append, List.foldl_append,
      List.foldl_cons, hline]
  have hreads : ∀ acc, processReads (handleData sid) acc (rs1 ++ r1 :: rs2)
      = processReads (handleData sid) acc (rs1 ++ r2 :: rs2) :=
    fun acc => foldl_mid_congr _ rs1 rs2 r1 r2 hread acc
  cases t with
  | none => rw [sendMessage_ok_none, sendMessage_ok_none, hreads]
  | some m => rw [sendMessage_ok_throw, sendMessage_ok_throw, hreads]

/-- **C5, counterexample.**  Frames arriving after a complete frame of
the same stream still change UI state: a second complete frame appends a
second (duplicate) mentor message, and a chunk frame after a complete
frame appends to `streamingMessage` — Completed is not terminal in the
consumer. -/
theorem frames_after_complete_still_apply :
    (sendMessage initialState "s1" "q"
      (.ok ["data: \x7b\"type\":\"chunk\",\"content\":\"a\"\x7d\n",
            "data: \x7b\"type\":\"complete\"\x7d\n"] none)).1.messages
      = [userMsg "s1" "q",
         { session_id := "s1", message := "a", sender := "mentor",
           suggestions := some (.arr []) }]
    ∧ (sendMessage initialState "s1" "q"
      (.ok ["data: \x7b\"type\":\"chunk\",\"content\":\"a\"\x7d\n",
            "data: \x7b\"type\":\"complete\"\x7d\n",
            "data: \x7b\"type\":\"complete\"\x7d\n"] none)).1.messages
      = [userMsg "s1" "q",
         { session_id := "s1", message := "a", sender := "mentor",
           suggestions := some (.arr []) },
         { session_id := "s1", message := "a", sender := "mentor",
           suggestions := some (.arr []) }]
    ∧ (sendMessage initialState "s1" "q"
      (.ok ["data: \x7b\"type\":\"chunk\",\"content\":\"a\"\x7d\n",
            "data: \x7b\"type\":\"complete\"\x7d\n",
            "data: \x7b\"type\":\"chunk\",\"content\":\"b\"\x7d\n"] none)).1.streamingMessage
      = "b" :=
  ⟨rfl, rfl, rfl⟩

/-- **C5, amended.**  The consumer does not enforce terminality itself —
frames after a terminal frame are still processed (see the
counterexample) — but when the terminal frame is the last frame of the
stream, as the protocol guarantees, exactly one terminal transition is
applied: a final complete frame appends exactly one mentor message and a
final error frame appends none, and typing ends off in both cases. -/
theorem terminal_last_single_transition :
    (∀ (st : AppState) (sid msg : String) (ls cs : List String) (lc : String),
      List.Forall₂ ChunkLine ls cs → CompleteLine lc →
        ((sendMessage st sid msg (.ok ((ls ++ [lc]).map (fun l => l ++ "\n")) none)).1.messages).length
            = st.messages.length + 2
        ∧ (sendMessage st sid msg (.ok ((ls ++ [lc]).map (fun l => l ++ "\n")) none)).1.isTyping
            = false)
    ∧ (∀ (st : AppState) (sid msg : String) (ls cs : List String) (le : String) (m : Option Json),
      List.Forall₂ ChunkLine ls cs → ErrorLine le m →
        ((sendMessage st sid msg (.ok ((ls ++ [le]).map (fun l => l ++ "\n")) none)).1.messages).length
            = st.messages.length + 1
        ∧ (sendMessage st sid msg (.ok ((ls ++ [le]).map (fun l => l ++ "\n")) none)).1.isTyping
            = false) := by
  constructor
  · intro st sid msg ls cs lc hls hlc
    obtain ⟨sug, hlast⟩ := processLine_complete sid lc hlc (concatList cs)
      { startState st sid msg with streamingMessage := concatList cs }
    rw [sendMessage_ok_none, chunks_then_line sid hls lc hlc.1 _ rfl, hlast]
    constructor
    · simp [startState]
    · rfl
  · intro st sid msg ls cs le m hls hle
    rw [sendMessage_ok_none, chunks_then_line sid hls le hle.1 _ rfl,
      processLine_error sid le m hle]
    constructor
    · simp [startState]
    · rfl

/-- **C6.**  An error frame (first conjunct, any position) and a
transport-level failure (third conjunct) both end the turn failed: typing
is cleared — which re-enables the input, `chatInputDisabled` becoming
false — the error message is surfaced, and the streaming text is empty.
In particular (second conjunct) a stream of zero chunks followed by an
error frame ends with empty streaming text, input re-enabled, the error
set, and a normal return of the empty accumulated response. -/
theorem failure_clears_typing_and_surfaces_error :
    (∀ (sid fr : String) (st : AppState) (data : Json),
      data.jget "type" = some (.str "error") →
        (handleData sid (fr, st) data).2.isTyping = false
        ∧ (handleData sid (fr, st) data).2.error = data.jget "message"
        ∧ (handleData sid (fr, st) data).2.streamingMessage = "")
    ∧ (∀ (st : AppState) (sid msg le : String) (m : Option Json),
      ErrorLine le m →
        (sendMessage st sid msg (.ok [le ++ "\n"] none)).1.isTyping = false
        ∧ (sendMessage st sid msg (.ok [le ++ "\n"] none)).1.streamingMessage = ""
        ∧ (sendMessage st sid msg (.ok [le ++ "\n"] none)).1.error = m
        ∧ chatInputDisabled (sendMessage st sid msg (.ok [le ++ "\n"] none)).1.isTyping = false
        ∧ (sendMessage st sid msg (.ok [le ++ "\n"] none)).2 = .ok "")
    ∧ (∀ (st : AppState) (sid msg : String) (reads : List String) (m : String),
        (sendMessage st sid msg (.ok reads (some m))).1.isTyping = false
        ∧ (sendMessage st sid msg (.ok reads (some m))).1.streamingMessage = ""
        ∧ (sendMessage st sid msg (.ok reads (some m))).1.error = some (.str m)
        ∧ chatInputDisabled (sendMessage st sid msg (.ok reads (some m))).1.isTyping = false
        ∧ (sendMessage st sid msg (.ok reads (some m))).2 = .error m) := by
  refine ⟨?_, ?_, ?_⟩
  · intro sid fr st data ht
    rw [handleData_error sid fr st data ht]
    exact ⟨rfl, rfl, rfl⟩
  · intro st sid msg le m hle
    have k1 : processReads (handleData sid) ("", startState st sid msg) [le ++ "\n"]
        = processLine (handleData sid) ("", startState st sid msg) le := by
      rw [processReads, List.foldl_cons, List.foldl_nil, processRead_line _ _ le hle.1]
    rw [sendMessage_ok_none, k1, processLine_error sid le m hle]
    exact ⟨rfl, rfl, rfl, rfl, rfl⟩
  · intro st sid msg reads m
    rw [sendMessage_ok_throw]
    exact ⟨rfl, rfl, rfl, rfl, rfl⟩

/-- **C7.**  The submit guard rejects exactly the attempts made while a
stream is in flight, while the trimmed input is empty or while no session
is selected (first conjunct: any such attempt returns without effect);
and on every screen where the submit button exists (a truthy
`currentSession` is the render condition) its disabled predicate agrees
with the guard's reject predicate (second conjunct). -/
theorem submit_guard_rejects_inflight :
    (∀ (input : String) (session : Json) (typing : Bool),
      (typing = true ∨ input.trim = "" ∨ truthy session = false) →
        handleSendMessage input session typing = .rejected)
    ∧ (∀ (input : String) (session : Json) (typing : Bool),
      truthy session = true →
        (sendButtonDisabled input typing = true ↔
          handleSendMessage input session typing = .rejected)) := by
  constructor
  · intro input session typing h
    unfold handleSendMessage
    rcases h with h | h | h <;> simp [h]
  · intro input session typing hs
    unfold handleSendMessage sendButtonDisabled
    by_cases h1 : input.trim = "" <;> by_cases h2 : typing = true <;>
      simp [h1, h2, hs]

lemma handleDataPremium_chunk_falsy (sid : String) (ctx : Json) (acc : Acc) (data : Json)
    (ht : data.jget "type" = some (.str "chunk"))
    (hc : truthyO (data.jget "content") = false) :
    handleDataPremium sid ctx acc data = acc := by
  obtain ⟨fr, st⟩ := acc
  simp [handleDataPremium, typeIs, ht, hc]

lemma falsy_content {data : Json}
    (hc : data.jget "content" = none ∨ data.jget "content" = some .null
        ∨ data.jget "content" = some (.str "")) :
    truthyO (data.jget "content") = false := by
  rcases hc with h | h | h <;> simp [h, truthyO, truthy]

lemma processLine_emptyChunk (sid : String) {e : String} (he : EmptyChunkLine e) (acc : Acc) :
    processLine (handleData sid) acc e = acc := by
  obtain ⟨hs, data, hp, ht, hc⟩ := he
  simp [processLine, hs, hp, handleData_chunk_falsy sid acc data ht (falsy_content hc)]

/-- **C8.**  A chunk frame whose content is missing, null or the empty
string is a no-op for both consumers (first two conjuncts: the whole
accumulator — accumulated response, streaming text, messages, typing —
is unchanged), and inserting any number of such frames anywhere into a
stream of lines leaves the processing of the stream unchanged (third
conjunct). -/
theorem empty_chunk_is_noop :
    (∀ (sid : String) (acc : Acc) (data : Json),
      data.jget "type" = some (.str "chunk") →
      (data.jget "content" = none ∨ data.jget "content" = some .null
        ∨ data.jget "content" = some (.str "")) →
      handleData sid acc data = acc)
    ∧ (∀ (sid : String) (ctx : Json) (acc : Acc) (data : Json),
      data.jget "type" = some (.str "chunk") →
      (data.jget "content" = none ∨ data.jget "content" = some .null
        ∨ data.jget "content" = some (.str "")) →
      handleDataPremium sid ctx acc data = acc)
    ∧ (∀ (sid : String) (ls ls' : List String), InsNoop EmptyChunkLine ls ls' →
      ∀ acc : Acc,
        ls'.foldl (processLine (handleData sid)) acc
          = ls.foldl (processLine (handleData sid)) acc) := by
  refine ⟨?_, ?_, ?_⟩
  · intro sid acc data ht hc
    exact handleData_chunk_falsy sid acc data ht (falsy_content hc)
  · intro sid ctx acc data ht hc
    exact handleDataPremium_chunk_falsy sid ctx acc data ht (falsy_content hc)
  · intro sid ls ls' h
    induction h with
    | nil => intro acc; rfl
    | keep a _ ih =>
      intro acc
      rw [List.foldl_cons, List.foldl_cons, ih]
    | ins e he _ ih =>
      intro acc
      rw [List.foldl_cons, processLine_emptyChunk sid he, ih]

/-- **C9.**  In the reducer, `SET_STREAMING_MESSAGE` appends its payload
to `streamingMessage` and changes nothing else (first conjunct); no
action other than `SET_STREAMING_MESSAGE` and `CLEAR_STREAMING_MESSAGE`
changes `streamingMessage` (second conjunct); and after any dispatched
action sequence, `streamingMessage` is the concatenation, in dispatch
order, of the `SET_STREAMING_MESSAGE` payloads since the most recent
`CLEAR_STREAMING_MESSAGE` — or since the start, appended to the initial
value, when no clear occurred (third conjunct). -/
theorem streamingMessage_is_concat_since_clear :
    (∀ (st : AppState) (p : String),
      appReducer st (.setStreamingMessage p)
        = { st with streamingMessage := st.streamingMessage ++ p })
    ∧ (∀ (st : AppState) (a : Action),
      setStreamingPayload a = none → isClearStreaming a = false →
        (appReducer st a).streamingMessage = st.streamingMessage)
    ∧ (∀ (s0 : AppState) (acts : List Action),
      (acts.foldl appReducer s0).streamingMessage
        = match afterLastClear acts with
          | none => s0.streamingMessage ++ concatList (acts.filterMap setStreamingPayload)
          | some suf => concatList (suf.filterMap setStreamingPayload)) := by
  refine ⟨fun st p => rfl, ?_, ?_⟩
  · intro st a h1 h2
    cases a <;> simp_all [setStreamingPayload, isClearStreaming, appReducer]
  · intro s0 acts
    induction acts generalizing s0 with
    | nil => simp [afterLastClear, concatList]
    | cons a rest ih =>
      rw [List.foldl_cons, ih]
      cases hsuf : afterLastClear rest with
      | some suf =>
        simp [afterLastClear, hsuf]
      | none =>
        cases a <;>
          simp [appReducer, afterLastClear, hsuf, setStreamingPayload, isClearStreaming,
            concatList, String.append_assoc]

/-- **C10.**  Both consumers append the user's message before opening the
network request and no failure path removes it (first and fourth
conjuncts: on every fetch outcome the final message list extends the old
list past the user message); on a non-OK response (second conjunct) and
on a thrown body read (third conjunct) the consumer clears typing and
the streaming text, sets the error, and rethrows — with the user message
still present and no rollback. -/
theorem user_message_survives_failure :
    (∀ (st : AppState) (sid msg : String) (r : FetchResult),
      ∃ t, (sendMessage st sid msg r).1.messages = st.messages ++ userMsg sid msg :: t)
    ∧ (∀ (st : AppState) (sid msg : String),
      (sendMessage st sid msg .notOk).1.messages = st.messages ++ [userMsg sid msg]
      ∧ (sendMessage st sid msg .notOk).1.isTyping = false
      ∧ (sendMessage st sid msg .notOk).1.streamingMessage = ""
      ∧ (sendMessage st sid msg .notOk).1.error = some (.str "Failed to send message")
      ∧ (sendMessage st sid msg .notOk).2 = .error "Failed to send message")
    ∧ (∀ (st : AppState) (sid msg : String) (reads : List String) (m : String),
      (∃ t, (sendMessage st sid msg (.ok reads (some m))).1.messages
          = st.messages ++ userMsg sid msg :: t)
      ∧ (sendMessage st sid msg (.ok reads (some m))).1.isTyping = false
      ∧ (sendMessage st sid msg (.ok reads (some m))).1.streamingMessage = ""
      ∧ (sendMessage st sid msg (.ok reads (some m))).1.error = some (.str m)
      ∧ (sendMessage st sid msg (.ok reads (some m))).2 = .error m)
    ∧ (∀ (st : AppState) (sid msg : String) (ctx : Json) (r : FetchResult),
      ∃ t, (sendPremiumMessage st sid msg ctx r).1.messages
          = st.messages ++ userMsg sid msg :: t) := by
  have hmsgs : ∀ (sid : String) (st : AppState) (msg : String) (reads : List String),
      ∃ t, (processReads (handleData sid) ("", startState st sid msg) reads).2.messages
        = st.messages ++ userMsg sid msg :: t := by
    intro sid st msg reads
    obtain ⟨t, ht⟩ := processReads_messages (handleData sid) (handleData_messages sid)
      reads ("", startState st sid msg)
    exact ⟨t, by rw [ht]; simp [startState]⟩
  have hmsgsP : ∀ (sid : String) (ctx : Json) (st : AppState) (msg : String)
      (reads : List String),
      ∃ t, (processReads (handleDataPremium sid ctx) ("", startState st sid msg) reads).2.messages
        = st.messages ++ userMsg sid msg :: t := by
    intro sid ctx st msg reads
    obtain ⟨t, ht⟩ := processReads_messages (handleDataPremium sid ctx)
      (handleDataPremium_messages sid ctx) reads ("", startState st sid msg)
    exact ⟨t, by rw [ht]; simp [startState]⟩
  refine ⟨?_, ?_, ?_, ?_⟩
  · intro st sid msg r
    cases r with
    | notOk => exact ⟨[], by rw [sendMessage_notOk]; simp [startState]⟩
    | ok reads tt =>
      cases tt with
      | none =>
        obtain ⟨t, ht⟩ := hmsgs sid st msg reads
        exact ⟨t, by rw [sendMessage_ok_none]; exact ht⟩
      | some m =>
        obtain ⟨t, ht⟩ := hmsgs sid st msg reads
        exact ⟨t, by rw [sendMessage_ok_throw]; exact ht⟩
  · intro st sid msg
    rw [sendMessage_notOk]
    exact ⟨by simp [startState], rfl, rfl, rfl, rfl⟩
  · intro st sid msg reads m
    obtain ⟨t, ht⟩ := hmsgs sid st msg reads
    rw [sendMessage_ok_throw]
    exact ⟨⟨t, ht⟩, rfl, rfl, rfl, rfl⟩
  · intro st sid msg ctx r
    cases r with
    | notOk => exact ⟨[], by rw [sendPremiumMessage_notOk]; simp [startState]⟩
    | ok reads tt =>
      cases tt with
      | none =>
        obtain ⟨t, ht⟩ := hmsgsP sid ctx st msg reads
        exact ⟨t, by rw [sendPremiumMessage_ok_none]; exact ht⟩
      | some m =>
        obtain ⟨t, ht⟩ := hmsgsP sid ctx st msg reads
        exact ⟨t, by rw [sendPremiumMessage_ok_throw]; exact ht⟩

/-! ## Concrete frames for the witnesses -/

def lineChunkHello : String := "data: \x7b\"type\":\"chunk\",\"content\":\"Hello \"\x7d"

def lineChunkWorld : String := "data: \x7b\"type\":\"chunk\",\"content\":\"world\"\x7d"

def lineComplete : String := "data: \x7b\"type\":\"complete\",\"suggestions\":[\"Try an example\"]\x7d"

def lineError : String := "data: \x7b\"type\":\"error\",\"message\":\"boom\"\x7d"

def lineEmptyChunk : String := "data: \x7b\"type\":\"chunk\",\"content\":\"\"\x7d"

lemma chunkLine_hello : ChunkLine lineChunkHello "Hello " :=
  ⟨(by decide : ∀ c ∈ lineChunkHello.data, c ≠ '\n'), rfl,
    ⟨.obj [("type", .str "chunk"), ("content", .str "Hello ")], rfl, rfl, rfl⟩⟩

lemma chunkLine_world : ChunkLine lineChunkWorld "world" :=
  ⟨(by decide : ∀ c ∈ lineChunkWorld.data, c ≠ '\n'), rfl,
    ⟨.obj [("type", .str "chunk"), ("content", .str "world")], rfl, rfl, rfl⟩⟩

lemma completeLine_concrete : CompleteLine lineComplete :=
  ⟨(by decide : ∀ c ∈ lineComplete.data, c ≠ '\n'), rfl,
    ⟨.obj [("type", .str "complete"), ("suggestions", .arr [.str "Try an example"])],
      rfl, rfl⟩⟩

lemma errorLine_boom : ErrorLine lineError (some (.str "boom")) :=
  ⟨(by decide : ∀ c ∈ lineError.data, c ≠ '\n'), rfl,
    ⟨.obj [("type", .str "error"), ("message", .str "boom")], rfl, rfl, rfl⟩⟩

lemma emptyChunkLine_concrete : EmptyChunkLine lineEmptyChunk :=
  ⟨rfl, ⟨.obj [("type", .str "chunk"), ("content", .str "")], rfl, rfl,
    Or.inr (Or.inr rfl)⟩⟩

/-! ## Witnesses -/

/-- Witness for C1 at a two-chunk stream. -/
theorem sendMessage_concatenates_chunks_in_order_witness :
    List.Forall₂ ChunkLine [lineChunkHello, lineChunkWorld] ["Hello ", "world"]
    ∧ CompleteLine lineComplete
    ∧ concatList ["Hello ", "world"] = "Hello world"
    ∧ ∃ ai : Msg,
        (sendMessage initialState "s1" "Explain"
            (.ok (([lineChunkHello, lineChunkWorld] ++ [lineComplete]).map
              (fun l => l ++ "\n")) none)).1.messages
            = initialState.messages ++ [userMsg "s1" "Explain", ai]
          ∧ ai.message = concatList ["Hello ", "world"] ∧ ai.sender = "mentor"
          ∧ (sendMessage initialState "s1" "Explain"
              (.ok (([lineChunkHello, lineChunkWorld] ++ [lineComplete]).map
                (fun l => l ++ "\n")) none)).2
              = .ok (concatList ["Hello ", "world"]) :=
  ⟨.cons chunkLine_hello (.cons chunkLine_world .nil), completeLine_concrete, rfl,
    sendMessage_concatenates_chunks_in_order.1 initialState "s1" "Explain"
      [lineChunkHello, lineChunkWorld] ["Hello ", "world"] lineComplete
      (.cons chunkLine_hello (.cons chunkLine_world .nil)) completeLine_concrete⟩

/-- Witness for the amended C3 at a one-chunk stream ending in an error
frame. -/
theorem error_frame_discards_partial_content_witness :
    List.Forall₂ ChunkLine [lineChunkHello] ["Hello "]
    ∧ ErrorLine lineError (some (.str "boom"))
    ∧ (sendMessage initialState "s1" "q"
        (.ok (([lineChunkHello] ++ [lineError]).map (fun l => l ++ "\n")) none)).1.streamingMessage
        = ""
    ∧ (sendMessage initialState "s1" "q"
        (.ok (([lineChunkHello] ++ [lineError]).map (fun l => l ++ "\n")) none)).1.messages
        = initialState.messages ++ [userMsg "s1" "q"] :=
  ⟨.cons chunkLine_hello .nil, errorLine_boom,
    (error_frame_discards_partial_content.1 initialState "s1" "q" [lineChunkHello] ["Hello "]
      lineError (some (.str "boom")) (.cons chunkLine_hello .nil) errorLine_boom).1,
    (error_frame_discards_partial_content.1 initialState "s1" "q" [lineChunkHello] ["Hello "]
      lineError (some (.str "boom")) (.cons chunkLine_hello .nil) errorLine_boom).2.2.2.1⟩

/-- Witness for C4: a malformed frame dropped from a read leaves
`sendMessage` unchanged. -/
theorem malformed_frame_is_skipped_witness :
    jsStartsWith "data: \x7bnot json" "data: " = true
    ∧ parseJson (jsSlice "data: \x7bnot json" 6) = none
    ∧ jsSplitNl (lineChunkHello ++ "\ndata: \x7bnot json\n")
        = [lineChunkHello] ++ "data: \x7bnot json" :: [""]
    ∧ jsSplitNl (lineChunkHello ++ "\n") = [lineChunkHello] ++ [""]
    ∧ sendMessage initialState "s1" "q"
        (.ok [lineChunkHello ++ "\ndata: \x7bnot json\n"] none)
      = sendMessage initialState "s1" "q" (.ok [lineChunkHello ++ "\n"] none) :=
  ⟨rfl, rfl, rfl, rfl,
    malformed_frame_is_skipped initialState "s1" "q" "data: \x7bnot json" rfl rfl
      [] [] [lineChunkHello] [""]
      (lineChunkHello ++ "\ndata: \x7bnot json\n") (lineChunkHello ++ "\n") rfl rfl none⟩

/-- Witness for the amended C5 at a one-chunk stream ending in a complete
frame. -/
theorem terminal_last_single_transition_witness :
    List.Forall₂ ChunkLine [lineChunkHello] ["Hello "]
    ∧ CompleteLine lineComplete
    ∧ ((sendMessage initialState "s1" "q"
        (.ok (([lineChunkHello] ++ [lineComplete]).map (fun l => l ++ "\n")) none)).1.messages).length
        = initialState.messages.length + 2
    ∧ (sendMessage initialState "s1" "q"
        (.ok (([lineChunkHello] ++ [lineComplete]).map (fun l => l ++ "\n")) none)).1.isTyping
        = false :=
  ⟨.cons chunkLine_hello .nil, completeLine_concrete,
    (terminal_last_single_transition.1 initialState "s1" "q" [lineChunkHello] ["Hello "]
      lineComplete (.cons chunkLine_hello .nil) completeLine_concrete).1,
    (terminal_last_single_transition.1 initialState "s1" "q" [lineChunkHello] ["Hello "]
      lineComplete (.cons chunkLine_hello .nil) completeLine_concrete).2⟩

/-- Witness for C6: an error frame, the zero-chunk error stream, and a
thrown body read. -/
theorem failure_clears_typing_and_surfaces_error_witness :
    (Json.obj [("type", .str "error"), ("message", .str "boom")]).jget "type"
        = some (.str "error")
    ∧ (handleData "s1" ("hi", initialState)
        (.obj [("type", .str "error"), ("message", .str "boom")])).2.isTyping = false
    ∧ ErrorLine lineError (some (.str "boom"))
    ∧ (sendMessage initialState "s1" "q" (.ok [lineError ++ "\n"] none)).1.error
        = some (.str "boom")
    ∧ (sendMessage initialState "s1" "q" (.ok [] (some "network down"))).2
        = .error "network down" :=
  ⟨rfl,
    (failure_clears_typing_and_surfaces_error.1 "s1" "hi" initialState
      (.obj [("type", .str "error"), ("message", .str "boom")]) rfl).1,
    errorLine_boom,
    (failure_clears_typing_and_surfaces_error.2.1 initialState "s1" "q" lineError
      (some (.str "boom")) errorLine_boom).2.2.1,
    (failure_clears_typing_and_surfaces_error.2.2 initialState "s1" "q" [] "network down").2.2.2.2⟩

/-- Witness for C7: an attempt during typing is rejected, and on a
rendered session the button predicate tracks the guard. -/
theorem submit_guard_rejects_inflight_witness :
    handleSendMessage "hello" (.obj []) true = .rejected
    ∧ (sendButtonDisabled "hello" false = true ↔
        handleSendMessage "hello" (.obj []) false = .rejected) :=
  ⟨submit_guard_rejects_inflight.1 "hello" (.obj []) true (Or.inl rfl),
    submit_guard_rejects_inflight.2 "hello" (.obj []) false rfl⟩

/-- Witness for C8: a content-less chunk frame is a no-op, and inserting
an empty-content chunk line leaves a stream's processing unchanged. -/
theorem empty_chunk_is_noop_witness :
    handleData "s1" ("x", initialState) (.obj [("type", .str "chunk")]) = ("x", initialState)
    ∧ [lineEmptyChunk, lineChunkHello].foldl (processLine (handleData "s1")) ("", initialState)
        = [lineChunkHello].foldl (processLine (handleData "s1")) ("", initialState) :=
  ⟨empty_chunk_is_noop.1 "s1" ("x", initialState) (.obj [("type", .str "chunk")]) rfl
      (Or.inl rfl),
    empty_chunk_is_noop.2.2 "s1" [lineChunkHello] [lineEmptyChunk, lineChunkHello]
      (.ins lineEmptyChunk emptyChunkLine_concrete (.keep lineChunkHello .nil))
      ("", initialState)⟩

/-- Witness for C9: a non-streaming action leaves `streamingMessage`
untouched. -/
theorem streamingMessage_is_concat_since_clear_witness :
    setStreamingPayload (.setTyping true) = none
    ∧ isClearStreaming (.setTyping true) = false
    ∧ (appReducer initialState (.setTyping true)).streamingMessage
        = initialState.streamingMessage :=
  ⟨rfl, rfl,
    streamingMessage_is_concat_since_clear.2.1 initialState (.setTyping true) rfl rfl⟩

end MasterX
